import Mathlib

/-!
Verification of the eCourts scraper (`src/ecourts.py`).

The Python module is shallowly embedded: each operation becomes a total Lean
function over an explicit model of the pieces the code gets from its
libraries.  The `requests` transport is a function `Request → Option Response`
(`safe_get` returns `None` on any non-2xx status, timeout or connection
error, so a faulty fetch is the `none` value).  A `BeautifulSoup` document is
modelled by the three views the code queries: the element list scanned by
`soup.find`, the anchor list from `soup.find_all("a", href=True)`, and the
flattened text from `soup.get_text(separator="|", strip=True)`.  Python
string operations are re-implemented on character lists (Python's `str.lower`
and `str.strip` act on the full Unicode tables; here, as in every input the
program meets in its own code paths, only their ASCII behaviour matters).
-/

namespace Ecourts

/-! ### Python string primitives, on character lists -/

/-- Python `s.lower()` (ASCII range; `Char.toLower` maps exactly `A`-`Z`). -/
def pyLower (s : String) : String := String.mk (s.data.map Char.toLower)

/-- Helper for `strContains`: does `n` occur as a contiguous run in the list? -/
def strContainsGo (n : List Char) : List Char → Bool
  | [] => n.isEmpty
  | c :: cs => List.isPrefixOf n (c :: cs) || strContainsGo n cs

/-- Python `needle in hay` on strings: contiguous substring membership. -/
def strContains (hay needle : String) : Bool := strContainsGo needle.data hay.data

/-- Python `s.startswith(p)`. -/
def pyStartsWith (s p : String) : Bool := List.isPrefixOf p.data s.data

/-- Python `s.endswith(p)`. -/
def pyEndsWith (s p : String) : Bool := List.isPrefixOf p.data.reverse s.data.reverse

/-- Python `s[:n]`. -/
def pyTake (s : String) (n : Nat) : String := String.mk (s.data.take n)

/-- Python `s.strip()` (ASCII whitespace). -/
def pyStrip (s : String) : String :=
  String.mk (((s.data.dropWhile Char.isWhitespace).reverse.dropWhile Char.isWhitespace).reverse)

/-- Helper for `pySplitChar`: split at every separator occurrence, keeping
empty pieces, with the piece under construction accumulated in reverse. -/
def pySplitGo (sep : Char) : List Char → List Char → List String
  | acc, [] => [String.mk acc.reverse]
  | acc, c :: cs =>
    if c = sep then String.mk acc.reverse :: pySplitGo sep [] cs
    else pySplitGo sep (c :: acc) cs

/-- Python `s.split(sep)` for a one-character separator (empty pieces kept). -/
def pySplitChar (sep : Char) (s : String) : List String := pySplitGo sep [] s.data

/-- Python `s.split()`: split on whitespace runs, dropping empty tokens. -/
def pyWords (s : String) : List String :=
  ((s.data.splitOnP Char.isWhitespace).map String.mk).filter (fun t => !t.isEmpty)

/-- Python `s.isdigit()`: nonempty and all digits (ASCII range). -/
def pyIsDigit (s : String) : Bool := !s.isEmpty && s.data.all Char.isDigit

/-! ### JSON values

`src/ecourts.py` moves two kinds of JSON around: the decoded body returned
by the `search_by_cnr` fast path (line 54), which `main` places into
`output["results"]` (line 179) and `write_json` then serialises, and the
mapping the program assembles itself.  The fast path makes the value
universe that of JSON: nulls, booleans, strings, arrays, string-keyed
objects, and numbers, which `json.loads` decodes to Python ints or floats.
Integral numbers are modelled exactly, as `Int`; a mapping holding a
non-integral IEEE-754 double lies outside this model, because serialising
one reproduces Python float `repr` — shortest-round-trip decimal formatting
of a binary double — floating-point behaviour a shallow embedding cannot
restate.  Objects are association lists in insertion order, as Python dicts
preserve it and `json.dump` serialises it. -/

inductive Json where
  | null
  | bool (b : Bool)
  | num (i : Int)
  | str (s : String)
  | arr (items : List Json)
  | obj (fields : List (String × Json))

/-! ### URLs and transport -/

/-- The `BASE` constant of `src/ecourts.py` line 11. -/
def BASE : String := "https://services.ecourts.gov.in/ecourtindia_v6/"

/-- Modelled from Python `urllib.parse.urljoin(BASE, href)`, specialised to
the fixed `BASE` (scheme `https`, host `services.ecourts.gov.in`, path ending
in a slash): absolute `http(s)` references are kept, scheme-relative ones get
`https`, root-relative ones are joined to the scheme and host, and anything
else (including query-only and plain relative references) is appended to the
base directory.  Dot segments are not normalised; no call site nor claim
produces one. -/
def urljoinBase (href : String) : String :=
  if pyStartsWith href "http://" || pyStartsWith href "https://" then href
  else if pyStartsWith href "//" then "https:" ++ href
  else if pyStartsWith href "/" then "https://services.ecourts.gov.in" ++ href
  else BASE ++ href

/-- An anchor element with an `href` attribute, as `find_all("a", href=True)`
yields it: its attribute and its visible text `a.get_text(strip=True)`. -/
structure Anchor where
  href : String
  text : String
deriving DecidableEq, Repr

/-- An element as `soup.find` scans it: its tag name and its `.text`. -/
structure Element where
  name : String
  text : String
deriving DecidableEq, Repr

/-- The three views of a parsed `BeautifulSoup` document the code queries. -/
structure HtmlDoc where
  elements : List Element
  anchors : List Anchor
  flatText : String
deriving DecidableEq, Repr

/-- An HTTP GET as `safe_get(url, params)` issues it. -/
structure Request where
  url : String
  params : List (String × String)
deriving DecidableEq, Repr

/-- A successful (2xx) response: the `Content-Type` header, the decoded JSON
body when `r.json()` succeeds (`none` when it raises), the body text
`r.text`, and the parsed document `BeautifulSoup(r.text, "html.parser")`. -/
structure Response where
  contentType : String
  jsonBody : Option Json
  text : String
  doc : HtmlDoc

/-- The transport oracle: `safe_get` returns `none` on any non-2xx status,
timeout or connection error, and never raises to its caller. -/
def Transport : Type := Request → Option Response

/-! ### `search_by_cnr` (lines 45-84) -/

/-- The `info` sub-dictionary assembled by `search_by_cnr`: each key is
present only when its `if` fired, so `title` and `pdf_links` are `Option`s
and `page_mentions_listing` is `true` exactly when the key was inserted. -/
structure CnrInfo where
  title : Option String
  pdf_links : Option (List String)
  page_mentions_listing : Bool
deriving DecidableEq, Repr

/-- The `result` dictionary of `search_by_cnr`: `raw` is `None` until a page
is fetched, and `info` is absent unless `result.update` ran. -/
structure CnrRecord where
  cnr : String
  found : Bool
  raw : Option String
  info : Option CnrInfo
deriving DecidableEq, Repr

/-- What `search_by_cnr` returns: either the decoded JSON body from the
fast path (line 54) or the assembled record dictionary. -/
inductive CnrResult where
  | fromJson (j : Json)
  | record (r : CnrRecord)

/-- The `found` field of a returned record, when the record shape came back. -/
def CnrResult.foundFlag : CnrResult → Option Bool
  | .fromJson _ => none
  | .record r => some r.found

/-- The fast-path URL of line 51. -/
def cnrDetailsRequest (cnr : String) : Request :=
  ⟨urljoinBase ("?p=casestatus%2Fcase_details&cnr=" ++ cnr), []⟩

/-- The HTML fallback URL of line 58. -/
def cnrIndexRequest (cnr : String) : Request :=
  ⟨urljoinBase ("?p=casestatus%2Findex&cnr=" ++ cnr), []⟩

/-- Lines 58-84: the HTML fallback of `search_by_cnr`.  On a failed fetch the
initial record is returned unchanged; on a fetched page the title heading,
the `.pdf` anchors and the listing mentions are scanned, and
`result.update({"found": True, "info": info})` runs unconditionally. -/
def searchCnrFallback (transport : Transport) (cnr : String) : CnrResult :=
  match transport (cnrIndexRequest cnr) with
  | none => .record ⟨cnr, false, none, none⟩
  | some r =>
    let title := r.doc.elements.find? fun t =>
      (t.name == "h1" || t.name == "h2" || t.name == "h3") && strContains t.text "CNR"
    let pdf_links := (r.doc.anchors.filter fun a =>
      pyEndsWith (pyLower a.href) ".pdf").map fun a => urljoinBase a.href
    let texts := r.doc.flatText
    .record ⟨cnr, true, some (pyTake r.text 5000), some
      ⟨title.map fun t => pyStrip t.text,
       if pdf_links.isEmpty then none else some pdf_links,
       strContains (pyLower texts) "cause list" || strContains (pyLower texts) "listed"⟩⟩

/-- Lines 45-84: `search_by_cnr`.  The fast path returns the decoded JSON
body when the details fetch succeeded with a JSON content type and a
decodable body; every other outcome falls through to the HTML fallback. -/
def search_by_cnr (transport : Transport) (cnr : String) : CnrResult :=
  match transport (cnrDetailsRequest cnr) with
  | some r =>
    if pyStartsWith r.contentType "application/json" then
      match r.jsonBody with
      | some j => .fromJson j
      | none => searchCnrFallback transport cnr
    else searchCnrFallback transport cnr
  | none => searchCnrFallback transport cnr

/-! ### `search_by_case` (lines 87-107) -/

/-- One kept anchor: `{"text": text, "href": urljoin(BASE, href)}`. -/
structure CaseHit where
  text : String
  href : String
deriving DecidableEq, Repr

/-- What `search_by_case` returns: the bare `{"found": False}` dictionary on
a failed fetch (line 99, no `results` key), or the full dictionary. -/
inductive CaseResult where
  | fetchFailed
  | results (found : Bool) (hits : List CaseHit)
deriving DecidableEq, Repr

/-- The search-form URL and query parameters of lines 91-97. -/
def caseSearchRequest (case_type number year : String) : Request :=
  ⟨urljoinBase "?p=casestatus%2Findex",
   [("case_type", case_type), ("case_no", number), ("case_year", year)]⟩

/-- The line-105 keep condition on an anchor's visible text. -/
def caseMatches (case_type number year : String) (a : Anchor) : Bool :=
  strContains (pyLower a.text) (pyLower case_type)
    || strContains a.text number || strContains a.text year

/-- Lines 87-107: `search_by_case`. -/
def search_by_case (transport : Transport) (case_type number year : String) : CaseResult :=
  match transport (caseSearchRequest case_type number year) with
  | none => .fetchFailed
  | some r =>
    let results := (r.doc.anchors.filter (caseMatches case_type number year)).map
      fun a => CaseHit.mk a.text (urljoinBase a.href)
    .results (!results.isEmpty) results

/-! ### `get_cause_list_for_court` (lines 110-126) -/

/-- A calendar date as the `datetime.date` argument carries it. -/
structure PyDate where
  year : Nat
  month : Nat
  day : Nat
deriving DecidableEq, Repr

/-- What `get_cause_list_for_court` returns: `{"ok": True, "pdfs": ...}` or
`{"ok": False, "reason": ...}`. -/
inductive CauseListResult where
  | ok (pdfs : List String)
  | err (reason : String)
deriving DecidableEq, Repr

/-- The one fixed index URL of line 114; no argument of the operation,
the `date` included, reaches it. -/
def causeListRequest : Request := ⟨urljoinBase "?p=cause_list%2Findex", []⟩

/-- Lines 110-126: `get_cause_list_for_court`.  The `state`, `district`,
`court_complex` and `date` arguments are accepted but never parameterise the
request: `date` is only defaulted to today and printed (lines 112-113), which
affects no output, so the model takes it and ignores it. -/
def get_cause_list_for_court (transport : Transport)
    (state district court_complex : Option String) (date : Option PyDate) : CauseListResult :=
  match transport causeListRequest with
  | none => .err "Failed to load cause list index"
  | some r =>
    let pdfs := (r.doc.anchors.filter fun a =>
      strContains (pyLower a.href) ".pdf" && strContains (pyLower a.href) "cause").map
      fun a => urljoinBase a.href
    if pdfs.isEmpty then .err "No direct cause-list PDFs found (captcha likely required)"
    else .ok pdfs

/-! ### `check_listing_in_causelist` (lines 129-158) -/

/-- The `case_identifiers` dictionary: a key maps to `none` when absent. -/
structure CaseIdentifiers where
  cnr : Option String
  number : Option String
  year : Option String
deriving DecidableEq, Repr

/-- A best-effort line match `{"serial": ..., "court": ..., "line": ...}`. -/
structure ListingMatch where
  serial : String
  court : String
  line : String
deriving DecidableEq, Repr

/-- The per-line scan both branches of lines 134-157 run: when the needle
occurs in the text, find the first pipe-delimited line holding it and report
that line with its first purely-numeric whitespace token (`"?"` when the
line has none) and the never-parsed court placeholder.  When the needle
occurs in the text but inside no single line (it straddles a separator),
the Python `for` loop falls through and the branch yields nothing. -/
def listingScan (text needle : String) : Option ListingMatch :=
  if strContains text needle then
    match (pySplitChar '|' text).find? (fun line => strContains line needle) with
    | some line => some ⟨(((pyWords line).find? pyIsDigit).getD "?"), "?", line⟩
    | none => none
  else none

/-- Lines 134-148: the CNR branch, scanning for the lowered CNR.  Taken when
the `cnr` key is present and truthy (nonempty). -/
def checkListingCnr (text : String) (ids : CaseIdentifiers) : Option ListingMatch :=
  match ids.cnr with
  | none => none
  | some cnr0 => if cnr0 = "" then none else listingScan text (pyLower cnr0)

/-- Lines 150-157: the `number`/`year` branch, scanning for the lowered
`f"{number}/{year}"`.  Taken when both keys are present (their truthiness is
not checked there). -/
def checkListingNumberYear (text : String) (ids : CaseIdentifiers) : Option ListingMatch :=
  match ids.number, ids.year with
  | some number, some year => listingScan text (pyLower (number ++ "/" ++ year))
  | _, _ => none

/-- Lines 129-158: `check_listing_in_causelist`.  The document is flattened
with `get_text(separator="|", strip=True)` and lower-cased as a whole before
any splitting or matching; the `court` column is never parsed. -/
def check_listing_in_causelist (doc : HtmlDoc) (ids : CaseIdentifiers) : Option ListingMatch :=
  let text := pyLower doc.flatText
  match checkListingCnr text ids with
  | some m => some m
  | none => checkListingNumberYear text ids

/-! ### `write_json` (lines 26-29): the serialised file contents

`write_json` opens the path in text mode with UTF-8 encoding and runs
`json.dump(data, f, ensure_ascii=False, indent=2)`.  With an indent, Python
uses the pure-Python encoder with separators `(",", ": ")`: a nonempty array
or object opens its bracket, puts each element on its own line indented by
two more spaces, separates elements with a comma placed before the line
break, and closes the bracket on a fresh line at the enclosing indent.
`ensure_ascii=False` writes every character from `U+0020` up verbatim except
`"` and `\`; the characters below `U+0020` use the short escapes
`\b \t \n \f \r` where they exist and lower-case `\u00XX` otherwise. -/

/-- The two-space indentation at nesting level `lvl`. -/
def indentL (lvl : Nat) : List Char := List.replicate (2 * lvl) ' '

/-- A line break followed by the level-`lvl` indentation. -/
def nlIndent (lvl : Nat) : List Char := '\n' :: indentL lvl

/-- The lower-case hexadecimal digit for `n < 16`, as `"\u%04x" % n` picks it. -/
def toHexCh (n : Nat) : Char :=
  if n < 10 then Char.ofNat (48 + n) else Char.ofNat (87 + n)

/-- One character of a serialised string, as `json.encoder` escapes it with
`ensure_ascii=False`. -/
def escChar (c : Char) : List Char :=
  if c = '"' then ['\\', '"']
  else if c = '\\' then ['\\', '\\']
  else if c = '\n' then ['\\', 'n']
  else if c = '\r' then ['\\', 'r']
  else if c = '\t' then ['\\', 't']
  else if c = Char.ofNat 8 then ['\\', 'b']
  else if c = Char.ofNat 12 then ['\\', 'f']
  else if c.toNat < 32 then
    ['\\', 'u', '0', '0', toHexCh (c.toNat / 16), toHexCh (c.toNat % 16)]
  else [c]

/-- A serialised JSON string: quoted, with each character escaped. -/
def encStrL (s : String) : List Char := '"' :: (s.data.flatMap escChar ++ ['"'])

/-- The base-10 digits of a number, least significant first (empty for 0). -/
def decDigits : Nat → List Nat
  | 0 => []
  | n + 1 => (n + 1) % 10 :: decDigits ((n + 1) / 10)

/-- The number a least-significant-first digit list denotes. -/
def digitsVal : List Nat → Nat
  | [] => 0
  | d :: ds => d + 10 * digitsVal ds

/-- The number a most-significant-first digit list denotes. -/
def digitsNum (ds : List Nat) : Nat := ds.foldl (fun a d => a * 10 + d) 0

/-- The printed digit sequence of a number, most significant first; zero
prints as a single digit. -/
def natDigitsM (n : Nat) : List Nat :=
  if n = 0 then [0] else (decDigits n).reverse

/-- The decimal character run of a natural number. -/
def natChars (n : Nat) : List Char :=
  (natDigitsM n).map fun d => Char.ofNat (48 + d)

/-- A serialised integer, as Python `repr` of an `int` prints it: an
optional minus sign, then decimal digits. -/
def intChars (i : Int) : List Char :=
  if i < 0 then '-' :: natChars i.natAbs else natChars i.natAbs

mutual

/-- A value serialised at nesting level `lvl`, as `json.dump(..., indent=2)`
emits it. -/
def encVal (lvl : Nat) : Json → List Char
  | .null => "null".data
  | .bool b => if b then "true".data else "false".data
  | .num i => intChars i
  | .str s => encStrL s
  | .arr [] => ['[', ']']
  | .arr (x :: xs) =>
    '[' :: (nlIndent (lvl + 1) ++ encVal (lvl + 1) x
      ++ encItems (lvl + 1) xs ++ nlIndent lvl ++ [']'])
  | .obj [] => ['{', '}']
  | .obj ((k, v) :: kvs) =>
    '{' :: (nlIndent (lvl + 1) ++ encStrL k ++ ':' :: ' ' :: encVal (lvl + 1) v
      ++ encFields (lvl + 1) kvs ++ nlIndent lvl ++ ['}'])

/-- The remaining array elements, each preceded by the item separator `,`
and a fresh indented line. -/
def encItems (lvl : Nat) : List Json → List Char
  | [] => []
  | x :: xs => ',' :: (nlIndent lvl ++ encVal lvl x ++ encItems lvl xs)

/-- The remaining object members, each preceded by the item separator `,`,
a fresh indented line, the serialised key and the key separator `: `. -/
def encFields (lvl : Nat) : List (String × Json) → List Char
  | [] => []
  | (k, v) :: kvs =>
    ',' :: (nlIndent lvl ++ encStrL k ++ ':' :: ' ' :: encVal lvl v ++ encFields lvl kvs)

end

/-- The serialised document, as `json.dump` writes it at top level. -/
def dumps (v : Json) : String := String.mk (encVal 0 v)

/-- Lines 26-29: `write_json`, modelled by the contents the call leaves in
the file at `path` (the path handling and the confirmation print carry no
data). -/
def write_json (data : Json) : String := dumps data

/-! ### A JSON parser, to read the written file back

The round-trip claim compares the written file, parsed back, with the
in-memory value.  The parser below reads the full JSON grammar over the
value universe above: it skips insignificant whitespace, reads the three
literals, reads integer numbers with an optional minus sign (fractions and
exponents belong to the non-integral doubles outside the model), reads
strings with the standard escapes including `\uXXXX`, and reads
comma-separated arrays and objects.  It recurses structurally on a fuel
count, one unit per parsing step; `parse` provides one unit per input
character plus one, which the round-trip proof shows sufficient for every
serialised document. -/

/-- Insignificant JSON whitespace. -/
def isWsCh (c : Char) : Bool := c = ' ' || c = '\n' || c = '\t' || c = '\r'

/-- A decimal digit character. -/
def isDigCh (c : Char) : Bool := 48 ≤ c.toNat && c.toNat ≤ 57

/-- Reads a run of decimal digits off the input, as their values, most
significant first, together with the remaining input. -/
def grabDigits : List Char → List Nat × List Char
  | [] => ([], [])
  | c :: cs =>
    if isDigCh c then
      let p := grabDigits cs
      ((c.toNat - 48) :: p.1, p.2)
    else ([], c :: cs)

/-- An input that cannot extend a decimal digit run: empty, or headed by a
non-digit.  Every separator the serialiser places after a number — a comma,
a line break, a closing bracket — qualifies. -/
def numDelim : List Char → Bool
  | [] => true
  | c :: _ => !isDigCh c

/-- Drops leading insignificant whitespace. -/
def dropWs : List Char → List Char
  | [] => []
  | c :: cs => if isWsCh c then dropWs cs else c :: cs

/-- The value of a hexadecimal digit character. -/
def hexv (c : Char) : Option Nat :=
  if 48 ≤ c.toNat ∧ c.toNat ≤ 57 then some (c.toNat - 48)
  else if 97 ≤ c.toNat ∧ c.toNat ≤ 102 then some (c.toNat - 87)
  else if 65 ≤ c.toNat ∧ c.toNat ≤ 70 then some (c.toNat - 55)
  else none

/-- The character denoted by a short escape `\x`: the three punctuation
escapes denote themselves, the five letter escapes their control character. -/
def unescCh (e : Char) : Option Char :=
  if e = 'n' then some '\n'
  else if e = 't' then some '\t'
  else if e = 'r' then some '\r'
  else if e = 'b' then some (Char.ofNat 8)
  else if e = 'f' then some (Char.ofNat 12)
  else if e = '"' || e = '\\' || e = '/' then some e
  else none

/-- Reads a string body after its opening quote, up to and over the closing
quote; returns the denoted characters and the remaining input. -/
def parseStrBody : List Char → Option (List Char × List Char)
  | '"' :: rest => some ([], rest)
  | '\\' :: 'u' :: h1 :: h2 :: h3 :: h4 :: rest =>
    match hexv h1, hexv h2, hexv h3, hexv h4 with
    | some v1, some v2, some v3, some v4 =>
      (parseStrBody rest).map fun p =>
        (Char.ofNat (((v1 * 16 + v2) * 16 + v3) * 16 + v4) :: p.1, p.2)
    | _, _, _, _ => none
  | '\\' :: e :: rest =>
    match unescCh e with
    | some ch => (parseStrBody rest).map fun p => (ch :: p.1, p.2)
    | none => none
  | ['\\'] => none
  | c :: rest => (parseStrBody rest).map fun p => (c :: p.1, p.2)
  | [] => none

mutual

/-- Reads one JSON value. -/
def parseVal : Nat → List Char → Option (Json × List Char)
  | 0, _ => none
  | fuel + 1, cs =>
    match dropWs cs with
    | 'n' :: 'u' :: 'l' :: 'l' :: rest => some (.null, rest)
    | 't' :: 'r' :: 'u' :: 'e' :: rest => some (.bool true, rest)
    | 'f' :: 'a' :: 'l' :: 's' :: 'e' :: rest => some (.bool false, rest)
    | '"' :: rest => (parseStrBody rest).map fun p => (.str (String.mk p.1), p.2)
    | '[' :: rest =>
      match dropWs rest with
      | [] => none
      | c :: rest2 =>
        if c = ']' then some (.arr [], rest2)
        else
          match parseVal fuel (c :: rest2) with
          | some (v, rest3) => (parseItems fuel rest3).map fun p => (.arr (v :: p.1), p.2)
          | none => none
    | '{' :: rest =>
      match dropWs rest with
      | [] => none
      | c :: rest2 =>
        if c = '}' then some (.obj [], rest2)
        else
          match parseField fuel (c :: rest2) with
          | some (kv, rest3) => (parseFields fuel rest3).map fun p => (.obj (kv :: p.1), p.2)
          | none => none
    | '-' :: rest =>
      match grabDigits rest with
      | (d :: ds, rest2) => some (.num (-(digitsNum (d :: ds) : Int)), rest2)
      | ([], _) => none
    | c :: rest =>
      if isDigCh c then
        some (.num (digitsNum (grabDigits (c :: rest)).1), (grabDigits (c :: rest)).2)
      else none
    | [] => none

/-- Reads one `"key": value` member. -/
def parseField : Nat → List Char → Option ((String × Json) × List Char)
  | 0, _ => none
  | fuel + 1, cs =>
    match dropWs cs with
    | '"' :: rest =>
      match parseStrBody rest with
      | some (k, rest2) =>
        match dropWs rest2 with
        | ':' :: rest3 => (parseVal fuel rest3).map fun p => ((String.mk k, p.1), p.2)
        | _ => none
      | none => none
    | _ => none

/-- After one array element: reads `, value` repeatedly until `]`. -/
def parseItems : Nat → List Char → Option (List Json × List Char)
  | 0, _ => none
  | fuel + 1, cs =>
    match dropWs cs with
    | ',' :: rest =>
      match parseVal fuel rest with
      | some (v, rest2) => (parseItems fuel rest2).map fun p => (v :: p.1, p.2)
      | none => none
    | ']' :: rest => some ([], rest)
    | _ => none

/-- After one object member: reads `, "key": value` repeatedly until `}`. -/
def parseFields : Nat → List Char → Option (List (String × Json) × List Char)
  | 0, _ => none
  | fuel + 1, cs =>
    match dropWs cs with
    | ',' :: rest =>
      match parseField fuel rest with
      | some (kv, rest2) => (parseFields fuel rest2).map fun p => (kv :: p.1, p.2)
      | none => none
    | '}' :: rest => some ([], rest)
    | _ => none

end

/-- Parses a complete JSON document: one value, then only whitespace. -/
def parse (s : String) : Option Json :=
  match parseVal (s.data.length + 1) s.data with
  | some (v, rest) => if (dropWs rest).isEmpty then some v else none
  | none => none

/-! ### Concrete pages and transports used by the claim checks -/

/-- A fetched page carrying no structural signal at all. -/
def blankPage : HtmlDoc := ⟨[], [], ""⟩

/-- Serves the blank page for the `"ABC"` index fetch and fails the rest. -/
def c1Transport : Transport := fun req =>
  if req = cnrIndexRequest "ABC" then
    some ⟨"text/html", none, "<html><body>no signals here</body></html>", blankPage⟩
  else none

/-- Serves a non-JSON page for the `"ABC"` details probe and the blank page
for the index fetch: the fast path is probed but not taken. -/
def c1ProbeTransport : Transport := fun req =>
  if req = cnrDetailsRequest "ABC" then
    some ⟨"text/html", none, "<html>probe</html>", blankPage⟩
  else if req = cnrIndexRequest "ABC" then
    some ⟨"text/html", none, "<html><body>no signals here</body></html>", blankPage⟩
  else none

/-- The body of the C3 sample page. -/
def c3Html : String :=
  "<h1>CNR Number: ABC123</h1><a href=\"doc1.pdf\">Judgment PDF</a><a href=\"/files/doc2.pdf\">Order PDF</a>"

/-- The C3 sample page: one `h1` mentioning CNR, two `.pdf` anchors. -/
def c3Doc : HtmlDoc :=
  ⟨[⟨"h1", "CNR Number: ABC123"⟩],
   [⟨"doc1.pdf", "Judgment PDF"⟩, ⟨"/files/doc2.pdf", "Order PDF"⟩],
   "CNR Number: ABC123|Judgment PDF|Order PDF"⟩

/-- Serves the C3 sample page for the `"ABC123"` index fetch. -/
def c3Transport : Transport := fun req =>
  if req = cnrIndexRequest "ABC123" then some ⟨"text/html", none, c3Html, c3Doc⟩ else none

/-- A case-search results page: one matching anchor, one irrelevant one. -/
def c4Doc : HtmlDoc :=
  ⟨[], [⟨"r1.html", "W.P. 77 of 1999"⟩, ⟨"privacy.html", "Privacy policy"⟩],
   "W.P. 77 of 1999|Privacy policy"⟩

/-- The response wrapping `c4Doc`. -/
def c4Response : Response := ⟨"text/html", none, "<html>case rows</html>", c4Doc⟩

/-- Serves `c4Doc` for the `("W.P.", "77", "1999")` search fetch. -/
def c4Transport : Transport := fun req =>
  if req = caseSearchRequest "W.P." "77" "1999" then some c4Response else none

/-- The C5 page: the three anchors named by the claim. -/
def c5Doc : HtmlDoc :=
  ⟨[], [⟨"view1.html", "Criminal Appeal"⟩, ⟨"view2.html", "Case 10 of 2020"⟩,
        ⟨"about.html", "About this site"⟩],
   "Criminal Appeal|Case 10 of 2020|About this site"⟩

/-- The response wrapping `c5Doc`. -/
def c5Response : Response := ⟨"text/html", none, "<html>three anchors</html>", c5Doc⟩

/-- Serves `c5Doc` for the `("Crl", "10", "2023")` search fetch. -/
def c5Transport : Transport := fun req =>
  if req = caseSearchRequest "Crl" "10" "2023" then some c5Response else none

/-- A cause-list index page with no direct PDF link. -/
def c6Doc : HtmlDoc := ⟨[], [⟨"index.html", "Cause Lists"⟩], "Cause Lists"⟩

/-- The response wrapping `c6Doc`. -/
def c6Response : Response := ⟨"text/html", none, "<html>no pdfs</html>", c6Doc⟩

/-- Serves `c6Doc` for the cause-list index fetch. -/
def c6Transport : Transport := fun req =>
  if req = causeListRequest then some c6Response else none

/-- A cause-list index page with one matching PDF link. -/
def c6OkDoc : HtmlDoc :=
  ⟨[], [⟨"pdfs/causelist_today.pdf", "Today"⟩, ⟨"help.html", "Help"⟩], "Today|Help"⟩

/-- The response wrapping `c6OkDoc`. -/
def c6OkResponse : Response := ⟨"text/html", none, "<html>one pdf</html>", c6OkDoc⟩

/-- Serves `c6OkDoc` for the cause-list index fetch. -/
def c6OkTransport : Transport := fun req =>
  if req = causeListRequest then some c6OkResponse else none

/-- The C8 listing document: its flattened text is the claim's listing text. -/
def c8Doc : HtmlDoc := ⟨[], [], "... case XYZ1234567890123 serial 42 court 3 ..."⟩

/-- The C8 identifiers: only the CNR key is present. -/
def c8Ids : CaseIdentifiers := ⟨some "XYZ1234567890123", none, none⟩

/-! ### General lemmas about the string primitives -/

/-- Applying `Char.ofNat` at a scalar value below the surrogate range decodes back. -/
theorem toNat_ofNat_valid (n : Nat) (h : n < 55296) : (Char.ofNat n).toNat = n := by
  rw [Char.ofNat, dif_pos (Or.inl h)]
  rfl

/-- Lower-casing maps no character onto the pipe separator but the pipe. -/
theorem toLower_eq_pipe {c : Char} (h : c.toLower = '|') : c = '|' := by
  simp only [Char.toLower] at h
  split at h
  · rename_i hr
    have h2 := congrArg Char.toNat h
    rw [toNat_ofNat_valid (c.toNat + 32) (by omega)] at h2
    have h3 : ('|').toNat = 124 := by decide
    omega
  · exact h

/-- Splitting at pipes commutes with lower-casing the whole text. -/
theorem pySplitGo_map_toLower (cs : List Char) : ∀ acc : List Char,
    pySplitGo '|' (acc.map Char.toLower) (cs.map Char.toLower)
      = (pySplitGo '|' acc cs).map pyLower := by
  induction cs with
  | nil =>
    intro acc
    simp [pySplitGo, pyLower, List.map_reverse]
  | cons c cs ih =>
    intro acc
    by_cases hc : c = '|'
    · subst hc
      have h1 : ('|').toLower = '|' := by decide
      simp only [List.map_cons, pySplitGo, h1, if_pos rfl]
      rw [show ([] : List Char) = List.map Char.toLower [] from rfl, ih]
      simp [pyLower, List.map_reverse]
    · have h2 : c.toLower ≠ '|' := fun h => hc (toLower_eq_pipe h)
      simp only [List.map_cons, pySplitGo, if_neg hc, if_neg h2]
      rw [show (c.toLower :: acc.map Char.toLower) = (c :: acc).map Char.toLower from rfl, ih]

/-- The `pySplitChar` form of the commutation lemma. -/
theorem pySplitChar_pyLower (s : String) :
    pySplitChar '|' (pyLower s) = (pySplitChar '|' s).map pyLower := by
  have h := pySplitGo_map_toLower s.data []
  simpa [pySplitChar, pyLower] using h

/-! ### C1 -/

/-- C1 is refuted: on the fetched blank page — no heading whose text holds
"CNR", no anchor at all, hence neither structural signal — `search_by_cnr`
still returns `found=true`, where the claim demands `found=false`. -/
theorem c1_counterexample :
    (c1Transport (cnrIndexRequest "ABC")).map Response.doc = some ⟨[], [], ""⟩ ∧
    search_by_cnr c1Transport "ABC" =
      .record ⟨"ABC", true, some "<html><body>no signals here</body></html>",
        some ⟨none, none, false⟩⟩ :=
  ⟨rfl, rfl⟩

/-- C1 (amended): whenever the JSON fast path is not taken — the details
probe faults, or succeeds with a content type other than JSON, or with a
body `r.json()` cannot decode — the `found` flag records only that the HTML
index fetch succeeded: `found=true` on every fetched page, with or without
structural signals, and `found=false` exactly when that fetch fails. -/
theorem c1_found_iff_fetched (transport : Transport) (cnr : String)
    (hfast : ∀ r, transport (cnrDetailsRequest cnr) = some r →
      pyStartsWith r.contentType "application/json" = true → r.jsonBody = none) :
    (search_by_cnr transport cnr).foundFlag
      = some (transport (cnrIndexRequest cnr)).isSome := by
  have hfall : (searchCnrFallback transport cnr).foundFlag
      = some (transport (cnrIndexRequest cnr)).isSome := by
    unfold searchCnrFallback
    cases h : transport (cnrIndexRequest cnr) <;> simp [CnrResult.foundFlag]
  unfold search_by_cnr
  cases h : transport (cnrDetailsRequest cnr) with
  | none => exact hfall
  | some r =>
    show (if pyStartsWith r.contentType "application/json" = true then
        match r.jsonBody with
        | some j => CnrResult.fromJson j
        | none => searchCnrFallback transport cnr
      else searchCnrFallback transport cnr).foundFlag
      = some (transport (cnrIndexRequest cnr)).isSome
    by_cases hct : pyStartsWith r.contentType "application/json" = true
    · rw [if_pos hct, hfast r h hct]
      exact hfall
    · rw [if_neg hct]
      exact hfall

/-- C1 witness: the amended theorem at a transport whose details probe
succeeds with a non-JSON content type — the fast path probed, not taken —
and whose index fetch succeeds. -/
theorem c1_witness :
    (search_by_cnr c1ProbeTransport "ABC").foundFlag
      = some (c1ProbeTransport (cnrIndexRequest "ABC")).isSome :=
  c1_found_iff_fetched c1ProbeTransport "ABC" (fun r hr hct => by
    injection hr with h
    subst h
    exact absurd hct (by decide))

/-! ### C2 -/

/-- C2: under any transport whose relevant fetches all fault (`safe_get`
returns `None`), the three operations return their structured failure
values — a `found=false` record, the bare `{"found": False}` dictionary, and
`{"ok": False}` with a reason string.  Being total Lean functions of the
transport, they raise nothing to the caller. -/
theorem c2_transport_fault_structured (transport : Transport)
    (cnr ct num yr : String) (s d cc : Option String) (date : Option PyDate)
    (h1 : transport (cnrDetailsRequest cnr) = none)
    (h2 : transport (cnrIndexRequest cnr) = none)
    (h3 : transport (caseSearchRequest ct num yr) = none)
    (h4 : transport causeListRequest = none) :
    search_by_cnr transport cnr = .record ⟨cnr, false, none, none⟩ ∧
    search_by_case transport ct num yr = .fetchFailed ∧
    get_cause_list_for_court transport s d cc date
      = .err "Failed to load cause list index" := by
  refine ⟨?_, ?_, ?_⟩
  · unfold search_by_cnr searchCnrFallback
    rw [h1, h2]
  · unfold search_by_case
    rw [h3]
  · unfold get_cause_list_for_court
    rw [h4]

/-- C2 witness: the all-faulting transport. -/
theorem c2_witness :
    search_by_cnr (fun _ => none) "K" = .record ⟨"K", false, none, none⟩ ∧
    search_by_case (fun _ => none) "Crl" "1" "2024" = .fetchFailed ∧
    get_cause_list_for_court (fun _ => none) none none none none
      = .err "Failed to load cause list index" :=
  c2_transport_fault_structured (fun _ => none) "K" "Crl" "1" "2024"
    none none none none rfl rfl rfl rfl

/-! ### C3 -/

/-- C3: on the sample page with `<h1>CNR Number: ABC123</h1>` and two `.pdf`
anchors, the returned title holds the substring "CNR" and `pdf_links` has
exactly the two anchors' hrefs, each resolved against the configured base. -/
theorem c3_sample_extraction :
    search_by_cnr c3Transport "ABC123" =
      .record ⟨"ABC123", true, some c3Html, some
        ⟨some "CNR Number: ABC123",
         some [urljoinBase "doc1.pdf", urljoinBase "/files/doc2.pdf"], false⟩⟩ ∧
    strContains "CNR Number: ABC123" "CNR" = true ∧
    [urljoinBase "doc1.pdf", urljoinBase "/files/doc2.pdf"].length = 2 ∧
    urljoinBase "doc1.pdf" = BASE ++ "doc1.pdf" ∧
    urljoinBase "/files/doc2.pdf" = "https://services.ecourts.gov.in/files/doc2.pdf" :=
  ⟨rfl, by decide, rfl, by decide, by decide⟩

/-! ### C4 -/

/-- C4: on every fetched case-search page, the kept anchors are exactly
those whose visible text contains the case type case-insensitively, or the
number as a substring, or the year as a substring, and the `found` flag is
true exactly when the kept list is nonempty. -/
theorem c4_keep_iff (transport : Transport) (ct num yr : String) (r : Response)
    (h : transport (caseSearchRequest ct num yr) = some r) :
    search_by_case transport ct num yr =
      .results (!((r.doc.anchors.filter (caseMatches ct num yr)).map
          fun a => CaseHit.mk a.text (urljoinBase a.href)).isEmpty)
        ((r.doc.anchors.filter (caseMatches ct num yr)).map
          fun a => CaseHit.mk a.text (urljoinBase a.href)) ∧
    (∀ a : Anchor, caseMatches ct num yr a =
      (strContains (pyLower a.text) (pyLower ct)
        || strContains a.text num || strContains a.text yr)) ∧
    (∀ found hits, search_by_case transport ct num yr = .results found hits →
      (found = true ↔ hits ≠ [])) := by
  have hmain : search_by_case transport ct num yr =
      .results (!((r.doc.anchors.filter (caseMatches ct num yr)).map
          fun a => CaseHit.mk a.text (urljoinBase a.href)).isEmpty)
        ((r.doc.anchors.filter (caseMatches ct num yr)).map
          fun a => CaseHit.mk a.text (urljoinBase a.href)) := by
    unfold search_by_case
    rw [h]
  refine ⟨hmain, fun a => rfl, ?_⟩
  intro found hits heq
  rw [hmain] at heq
  injection heq with hfound hhits
  subst hhits
  subst hfound
  simp

/-- C4 witness: the filter semantics at the `c4Doc` page. -/
theorem c4_witness :
    search_by_case c4Transport "W.P." "77" "1999" =
      .results (!((c4Response.doc.anchors.filter (caseMatches "W.P." "77" "1999")).map
          fun a => CaseHit.mk a.text (urljoinBase a.href)).isEmpty)
        ((c4Response.doc.anchors.filter (caseMatches "W.P." "77" "1999")).map
          fun a => CaseHit.mk a.text (urljoinBase a.href)) :=
  (c4_keep_iff c4Transport "W.P." "77" "1999" c4Response rfl).1

/-! ### C5 -/

/-- C5 is refuted: on the claim's three-anchor page, the anchor with text
"Criminal Appeal" is not kept — `"crl"` is no substring of
`"criminal appeal"`, so its case-insensitive containment test fails — and
the kept list holds only the anchor whose text holds "10". -/
theorem c5_counterexample :
    search_by_case c5Transport "Crl" "10" "2023" ≠
      .results true [⟨"Criminal Appeal", urljoinBase "view1.html"⟩,
        ⟨"Case 10 of 2020", urljoinBase "view2.html"⟩] ∧
    strContains (pyLower "Criminal Appeal") (pyLower "Crl") = false :=
  ⟨by decide, by decide⟩

/-- C5 (amended): `search_by_case("Crl", "10", "2023")` over that page
returns `found=true` with exactly one result, the anchor whose text holds
"10"; the "Criminal Appeal" anchor fails all three OR conditions because
case-insensitive matching still requires "crl" to occur contiguously. -/
theorem c5_single_match :
    search_by_case c5Transport "Crl" "10" "2023" =
      .results true [⟨"Case 10 of 2020", urljoinBase "view2.html"⟩] := by
  decide

/-! ### C6 -/

/-- C6 is refuted on its reason string: with no direct PDF anchor on the
fetched index page, the operation reports
`"No direct cause-list PDFs found (captcha likely required)"`, not the
claimed `"no direct PDFs found (interactive verification likely required)"`. -/
theorem c6_counterexample :
    get_cause_list_for_court c6Transport none none none none =
      .err "No direct cause-list PDFs found (captcha likely required)" ∧
    CauseListResult.err "No direct cause-list PDFs found (captcha likely required)" ≠
      CauseListResult.err "no direct PDFs found (interactive verification likely required)" :=
  ⟨by decide, by decide⟩

/-- C6 (amended): on a fetched index page the result is `ok=true` with
exactly the base-joined hrefs of the anchors whose lower-cased href holds
both ".pdf" and "cause" when at least one exists, and otherwise `ok=false`
with the reason `"No direct cause-list PDFs found (captcha likely
required)"`. -/
theorem c6_pdf_scan (transport : Transport) (s d cc : Option String)
    (date : Option PyDate) (r : Response) (h : transport causeListRequest = some r) :
    get_cause_list_for_court transport s d cc date =
      (if ((r.doc.anchors.filter fun a =>
            strContains (pyLower a.href) ".pdf" && strContains (pyLower a.href) "cause").map
            fun a => urljoinBase a.href).isEmpty
       then .err "No direct cause-list PDFs found (captcha likely required)"
       else .ok ((r.doc.anchors.filter fun a =>
            strContains (pyLower a.href) ".pdf" && strContains (pyLower a.href) "cause").map
            fun a => urljoinBase a.href)) := by
  unfold get_cause_list_for_court
  rw [h]

/-- C6 witness: the scan finds the one matching PDF anchor of `c6OkDoc`. -/
theorem c6_witness :
    get_cause_list_for_court c6OkTransport none none none none =
      .ok [urljoinBase "pdfs/causelist_today.pdf"] :=
  (c6_pdf_scan c6OkTransport none none none none c6OkResponse rfl).trans (by decide)

/-! ### C7 -/

/-- C7: the `date` argument never influences the request or the result —
the operation always issues the fixed `causeListRequest` (a constant of the
model, the `date` unused in it), and for any two date arguments, the omitted
`none` default included, the same transport yields the same output. -/
theorem c7_date_no_influence (transport : Transport) (s d cc : Option String)
    (d1 d2 : Option PyDate) :
    get_cause_list_for_court transport s d cc d1
      = get_cause_list_for_court transport s d cc d2 :=
  rfl

/-! ### C8 -/

/-- C8: on the claim's listing text with the CNR identifier present, the
match is `serial="42"` — the first purely-numeric whitespace token of the
matching line — with the `court` placeholder `"?"` and the matching
(lower-cased, as the whole flattened text is lowered first) line. -/
theorem c8_listing_match :
    check_listing_in_causelist c8Doc c8Ids =
      some ⟨"42", "?", "... case xyz1234567890123 serial 42 court 3 ..."⟩ := by
  decide

/-! ### C10 -/

/-- What a successful `listingScan` returned: the first matching line, its
first numeric token, the `"?"` court placeholder. -/
theorem listingScan_spec (text needle : String) (m : ListingMatch)
    (h : listingScan text needle = some m) :
    (pySplitChar '|' text).find? (fun l => strContains l needle) = some m.line ∧
    m.serial = ((pyWords m.line).find? pyIsDigit).getD "?" ∧ m.court = "?" := by
  unfold listingScan at h
  split at h
  · split at h
    · rename_i line hfind
      injection h with h2
      subst h2
      exact ⟨hfind, rfl, rfl⟩
    · exact Option.noConfusion h
  · exact Option.noConfusion h

/-- What a match out of the CNR branch looks like: it comes from the first
line of the (already processed) text holding the lowered CNR. -/
theorem checkListingCnr_spec (text : String) (ids : CaseIdentifiers)
    (m : ListingMatch) (h : checkListingCnr text ids = some m) :
    ∃ c0, ids.cnr = some c0 ∧
      (pySplitChar '|' text).find? (fun l => strContains l (pyLower c0)) = some m.line ∧
      m.serial = ((pyWords m.line).find? pyIsDigit).getD "?" ∧ m.court = "?" := by
  unfold checkListingCnr at h
  cases hcnr : ids.cnr with
  | none =>
    rw [hcnr] at h
    exact Option.noConfusion h
  | some c0 =>
    rw [hcnr] at h
    change (if c0 = "" then none else listingScan text (pyLower c0)) = some m at h
    by_cases hc0 : c0 = ""
    · rw [if_pos hc0] at h
      exact Option.noConfusion h
    · rw [if_neg hc0] at h
      obtain ⟨hfind, hserial, hcourt⟩ := listingScan_spec _ _ _ h
      exact ⟨c0, rfl, hfind, hserial, hcourt⟩

/-- The `number/year` branch analogue of `checkListingCnr_spec`. -/
theorem checkListingNumberYear_spec (text : String) (ids : CaseIdentifiers)
    (m : ListingMatch) (h : checkListingNumberYear text ids = some m) :
    ∃ num yr, ids.number = some num ∧ ids.year = some yr ∧
      (pySplitChar '|' text).find?
        (fun l => strContains l (pyLower (num ++ "/" ++ yr))) = some m.line ∧
      m.serial = ((pyWords m.line).find? pyIsDigit).getD "?" ∧ m.court = "?" := by
  unfold checkListingNumberYear at h
  cases hn : ids.number with
  | none =>
    rw [hn] at h
    exact Option.noConfusion h
  | some num =>
    cases hy : ids.year with
    | none =>
      rw [hn, hy] at h
      exact Option.noConfusion h
    | some yr =>
      rw [hn, hy] at h
      change listingScan text (pyLower (num ++ "/" ++ yr)) = some m at h
      obtain ⟨hfind, hserial, hcourt⟩ := listingScan_spec _ _ _ h
      exact ⟨num, yr, rfl, rfl, hfind, hserial, hcourt⟩

/-- C10: every returned match is built from the lower-cased flattened text:
its `line` is the lower-cased form of a pipe-delimited line of the original
text, its `serial` is recomputed by the numeric-token scan on that lowered
line, and the lowered needle — the CNR, or `number/year` — occurs in the
lowered line. -/
theorem c10_lowercased_pipeline (doc : HtmlDoc) (ids : CaseIdentifiers)
    (m : ListingMatch) (h : check_listing_in_causelist doc ids = some m) :
    (∃ orig ∈ pySplitChar '|' doc.flatText, m.line = pyLower orig) ∧
    m.serial = (((pyWords m.line).find? pyIsDigit).getD "?") ∧
    ((∃ c0, ids.cnr = some c0 ∧ strContains m.line (pyLower c0) = true) ∨
     (∃ num yr, ids.number = some num ∧ ids.year = some yr ∧
        strContains m.line (pyLower (num ++ "/" ++ yr)) = true)) := by
  have hmap : ∀ (line : String) (needle : String),
      (pySplitChar '|' (pyLower doc.flatText)).find?
        (fun l => strContains l needle) = some line →
      (∃ orig ∈ pySplitChar '|' doc.flatText, line = pyLower orig)
        ∧ strContains line needle = true := by
    intro line needle hfind
    have hmem := List.mem_of_find?_eq_some hfind
    have hpred := List.find?_some hfind
    rw [pySplitChar_pyLower] at hmem
    obtain ⟨orig, ho, heq⟩ := List.mem_map.mp hmem
    exact ⟨⟨orig, ho, heq.symm⟩, hpred⟩
  simp only [check_listing_in_causelist] at h
  cases hc : checkListingCnr (pyLower doc.flatText) ids with
  | some m0 =>
    rw [hc] at h
    change some m0 = some m at h
    injection h with h2
    subst h2
    obtain ⟨c0, hcnr, hfind, hserial, hcourt⟩ := checkListingCnr_spec _ _ _ hc
    obtain ⟨horig, hpred⟩ := hmap _ _ hfind
    exact ⟨horig, hserial, Or.inl ⟨c0, hcnr, hpred⟩⟩
  | none =>
    rw [hc] at h
    change checkListingNumberYear (pyLower doc.flatText) ids = some m at h
    obtain ⟨num, yr, hn, hy, hfind, hserial, hcourt⟩ := checkListingNumberYear_spec _ _ _ h
    obtain ⟨horig, hpred⟩ := hmap _ _ hfind
    exact ⟨horig, hserial, Or.inr ⟨num, yr, hn, hy, hpred⟩⟩

/-- C10 witness: the pipeline facts at the C8 listing document. -/
theorem c10_witness :
    (∃ orig ∈ pySplitChar '|' c8Doc.flatText,
      (ListingMatch.line ⟨"42", "?", "... case xyz1234567890123 serial 42 court 3 ..."⟩)
        = pyLower orig) ∧
    (ListingMatch.serial ⟨"42", "?", "... case xyz1234567890123 serial 42 court 3 ..."⟩)
      = (((pyWords (ListingMatch.line
          ⟨"42", "?", "... case xyz1234567890123 serial 42 court 3 ..."⟩)).find?
            pyIsDigit).getD "?") ∧
    ((∃ c0, c8Ids.cnr = some c0 ∧ strContains (ListingMatch.line
        ⟨"42", "?", "... case xyz1234567890123 serial 42 court 3 ..."⟩)
        (pyLower c0) = true) ∨
     (∃ num yr, c8Ids.number = some num ∧ c8Ids.year = some yr ∧
        strContains (ListingMatch.line
          ⟨"42", "?", "... case xyz1234567890123 serial 42 court 3 ..."⟩)
          (pyLower (num ++ "/" ++ yr)) = true)) :=
  c10_lowercased_pipeline c8Doc c8Ids
    ⟨"42", "?", "... case xyz1234567890123 serial 42 court 3 ..."⟩ (by decide)

/-! ### Round-trip lemmas: strings -/

/-- Lower-case hex digits decode back to their values. -/
theorem hexv_toHexCh (n : Nat) (h : n < 16) : hexv (toHexCh n) = some n := by
  interval_cases n <;> decide

/-- A character which is neither a quote nor a backslash reads verbatim. -/
theorem parseStrBody_other (c : Char) (rest : List Char)
    (h1 : ¬ c = '"') (h2 : ¬ c = '\\') :
    parseStrBody (c :: rest) = (parseStrBody rest).map fun p => (c :: p.1, p.2) := by
  rw [parseStrBody.eq_def]
  split
  · rename_i heq
    injection heq with hh
    exact absurd hh h1
  · rename_i heq
    injection heq with hh
    exact absurd hh h2
  · rename_i heq
    injection heq with hh
    exact absurd hh h2
  · rename_i heq
    injection heq with hh
    exact absurd hh h2
  · rename_i c2 rest2 heq
    injection heq with hh hrest
    subst hh
    subst hrest
    rfl
  · rename_i heq
    exact absurd heq (by simp)

/-- Decoding undoes whatever escape `escChar` chose for one character. -/
theorem parseStrBody_escChar (c : Char) (rest : List Char) :
    parseStrBody (escChar c ++ rest)
      = (parseStrBody rest).map fun p => (c :: p.1, p.2) := by
  unfold escChar
  by_cases h1 : c = '"'
  · subst h1; rfl
  rw [if_neg h1]
  by_cases h2 : c = '\\'
  · subst h2; rfl
  rw [if_neg h2]
  by_cases h3 : c = '\n'
  · subst h3; rfl
  rw [if_neg h3]
  by_cases h4 : c = '\r'
  · subst h4; rfl
  rw [if_neg h4]
  by_cases h5 : c = '\t'
  · subst h5; rfl
  rw [if_neg h5]
  by_cases h6 : c = Char.ofNat 8
  · subst h6; rfl
  rw [if_neg h6]
  by_cases h7 : c = Char.ofNat 12
  · subst h7; rfl
  rw [if_neg h7]
  by_cases h8 : c.toNat < 32
  · rw [if_pos h8]
    have hx : hexv (toHexCh (c.toNat / 16)) = some (c.toNat / 16) :=
      hexv_toHexCh _ (by omega)
    have hy : hexv (toHexCh (c.toNat % 16)) = some (c.toNat % 16) :=
      hexv_toHexCh _ (by omega)
    have hofn : hexv '0' = some 0 := by decide
    have harith : ((0 * 16 + 0) * 16 + c.toNat / 16) * 16 + c.toNat % 16 = c.toNat := by
      omega
    calc parseStrBody
          (['\\', 'u', '0', '0', toHexCh (c.toNat / 16), toHexCh (c.toNat % 16)] ++ rest)
        = (match hexv '0', hexv '0',
              hexv (toHexCh (c.toNat / 16)), hexv (toHexCh (c.toNat % 16)) with
           | some v1, some v2, some v3, some v4 =>
             (parseStrBody rest).map fun p =>
               (Char.ofNat (((v1 * 16 + v2) * 16 + v3) * 16 + v4) :: p.1, p.2)
           | _, _, _, _ => none) := rfl
      _ = (parseStrBody rest).map fun p =>
            (Char.ofNat (((0 * 16 + 0) * 16 + c.toNat / 16) * 16 + c.toNat % 16)
              :: p.1, p.2) := by
            rw [hofn, hx, hy]
      _ = (parseStrBody rest).map fun p => (c :: p.1, p.2) := by
            rw [harith, Char.ofNat_toNat]
  · rw [if_neg h8]
    show parseStrBody (c :: rest) = _
    exact parseStrBody_other c rest h1 h2

/-- Decoding a fully escaped run recovers it up to the closing quote. -/
theorem parseStrBody_flatMap (l : List Char) : ∀ rest : List Char,
    parseStrBody (l.flatMap escChar ++ '"' :: rest) = some (l, rest) := by
  induction l with
  | nil =>
    intro rest
    rfl
  | cons c l ih =>
    intro rest
    rw [List.flatMap_cons, List.append_assoc, parseStrBody_escChar, ih]
    rfl

/-! ### Round-trip lemmas: numbers -/

/-- Digits extracted by `decDigits` are below the base. -/
theorem decDigits_lt (n : Nat) : ∀ d ∈ decDigits n, d < 10 := by
  induction n using Nat.strongRecOn with
  | _ n ih =>
    match n with
    | 0 =>
      intro d hd
      rw [show decDigits 0 = [] from by simp [decDigits]] at hd
      exact absurd hd (by simp)
    | n + 1 =>
      intro d hd
      rw [show decDigits (n + 1) = (n + 1) % 10 :: decDigits ((n + 1) / 10) from by
        simp [decDigits]] at hd
      rcases List.mem_cons.mp hd with h | h
      · omega
      · exact ih ((n + 1) / 10) (by omega) d h

/-- A positive number has at least one digit. -/
theorem decDigits_ne_nil (n : Nat) (h : n ≠ 0) : decDigits n ≠ [] := by
  match n, h with
  | n + 1, _ =>
    rw [show decDigits (n + 1) = (n + 1) % 10 :: decDigits ((n + 1) / 10) from by
      simp [decDigits]]
    simp

/-- The least-significant-first digits of a number denote it. -/
theorem digitsVal_decDigits (n : Nat) : digitsVal (decDigits n) = n := by
  induction n using Nat.strongRecOn with
  | _ n ih =>
    match n with
    | 0 => rw [show decDigits 0 = [] from by simp [decDigits]]; rfl
    | n + 1 =>
      rw [show decDigits (n + 1) = (n + 1) % 10 :: decDigits ((n + 1) / 10) from by
        simp [decDigits]]
      simp only [digitsVal]
      rw [ih ((n + 1) / 10) (by omega)]
      omega

/-- Appending a final digit multiplies the denoted value by the base. -/
theorem digitsNum_concat (ds : List Nat) (d : Nat) :
    digitsNum (ds ++ [d]) = digitsNum ds * 10 + d := by
  simp [digitsNum, List.foldl_append]

/-- Reversing links the two digit orders. -/
theorem digitsNum_reverse (ds : List Nat) : digitsNum ds.reverse = digitsVal ds := by
  induction ds with
  | nil => rfl
  | cons d ds ih =>
    rw [List.reverse_cons, digitsNum_concat, ih]
    simp only [digitsVal]
    omega

/-- Every printed digit is below the base. -/
theorem natDigitsM_lt (n : Nat) : ∀ d ∈ natDigitsM n, d < 10 := by
  intro d hd
  unfold natDigitsM at hd
  split at hd
  · simp at hd
    omega
  · exact decDigits_lt n d (List.mem_reverse.mp hd)

/-- A number always prints at least one digit. -/
theorem natDigitsM_ne_nil (n : Nat) : natDigitsM n ≠ [] := by
  unfold natDigitsM
  split
  · simp
  · rename_i h
    simp only [ne_eq, List.reverse_eq_nil_iff]
    exact decDigits_ne_nil n h

/-- The printed digit sequence denotes the number it prints. -/
theorem digitsNum_natDigitsM (n : Nat) : digitsNum (natDigitsM n) = n := by
  unfold natDigitsM
  split
  · rename_i h
    subst h
    rfl
  · rw [digitsNum_reverse, digitsVal_decDigits]

/-- Reading a digit run back gives its values, stopping at a delimiter. -/
theorem grabDigits_append (ds : List Nat) (hds : ∀ d ∈ ds, d < 10) :
    ∀ rest : List Char, numDelim rest = true →
    grabDigits ((ds.map fun d => Char.ofNat (48 + d)) ++ rest) = (ds, rest) := by
  induction ds with
  | nil =>
    intro rest hrest
    rw [List.map_nil, List.nil_append]
    cases rest with
    | nil => rfl
    | cons c cs =>
      have hc : isDigCh c = false := by
        have h := hrest
        simp only [numDelim, Bool.not_eq_true'] at h
        exact h
      rw [grabDigits.eq_def]
      simp [hc]
  | cons d ds ih =>
    intro rest hrest
    have hd : d < 10 := hds d (by simp)
    have htoNat : (Char.ofNat (48 + d)).toNat = 48 + d :=
      toNat_ofNat_valid (48 + d) (by omega)
    have hdig : isDigCh (Char.ofNat (48 + d)) = true := by
      simp only [isDigCh, htoNat]
      simp only [Bool.and_eq_true, decide_eq_true_eq]
      omega
    rw [List.map_cons, List.cons_append, grabDigits.eq_def]
    simp only [hdig, if_pos]
    rw [ih (fun x hx => hds x (by simp [hx])) rest hrest]
    simp [htoNat]

/-- A digit character is none of the parser's other lead characters. -/
theorem digitCh_props (c : Char) (hc : isDigCh c = true) :
    isWsCh c = false ∧ c ≠ ']' ∧ c ≠ '}' ∧ c ≠ 'n' ∧ c ≠ 't' ∧ c ≠ 'f'
      ∧ c ≠ '"' ∧ c ≠ '[' ∧ c ≠ '{' ∧ c ≠ '-' := by
  have h48 : 48 ≤ c.toNat ∧ c.toNat ≤ 57 := by
    simpa [isDigCh] using hc
  have hsp : c ≠ ' ' := fun h => by subst h; exact absurd h48 (by decide)
  have hnl : c ≠ '\n' := fun h => by subst h; exact absurd h48 (by decide)
  have htb : c ≠ '\t' := fun h => by subst h; exact absurd h48 (by decide)
  have hcr : c ≠ '\r' := fun h => by subst h; exact absurd h48 (by decide)
  refine ⟨by simp [isWsCh, hsp, hnl, htb, hcr], ?_, ?_, ?_, ?_, ?_, ?_, ?_, ?_, ?_⟩
  all_goals exact fun h => by subst h; exact absurd h48 (by decide)

/-- A serialised element list, or its closing line, cannot extend a digit
run: it opens with a comma or a line break. -/
theorem numDelim_encItems (lvlI lvlC : Nat) (xs : List Json) (r : List Char) :
    numDelim (encItems lvlI xs ++ (nlIndent lvlC ++ (']' :: r))) = true := by
  cases xs with
  | nil =>
    rw [show encItems lvlI [] = ([] : List Char) from by simp [encItems], List.nil_append,
      show nlIndent lvlC ++ (']' :: r) = '\n' :: (indentL lvlC ++ (']' :: r)) from rfl]
    rfl
  | cons x xs =>
    rw [show encItems lvlI (x :: xs) ++ (nlIndent lvlC ++ (']' :: r))
      = ',' :: (nlIndent lvlI ++ (encVal lvlI x
          ++ (encItems lvlI xs ++ (nlIndent lvlC ++ (']' :: r))))) from by simp [encItems]]
    rfl

/-- The member-list analogue of `numDelim_encItems`. -/
theorem numDelim_encFields (lvlI lvlC : Nat) (kvs : List (String × Json)) (r : List Char) :
    numDelim (encFields lvlI kvs ++ (nlIndent lvlC ++ ('}' :: r))) = true := by
  cases kvs with
  | nil =>
    rw [show encFields lvlI [] = ([] : List Char) from by simp [encFields], List.nil_append,
      show nlIndent lvlC ++ ('}' :: r) = '\n' :: (indentL lvlC ++ ('}' :: r)) from rfl]
    rfl
  | cons kv kvs =>
    rw [show encFields lvlI (kv :: kvs) ++ (nlIndent lvlC ++ ('}' :: r))
      = ',' :: (nlIndent lvlI ++ (encStrL kv.1 ++ ':' :: ' ' :: (encVal lvlI kv.2
          ++ (encFields lvlI kvs ++ (nlIndent lvlC ++ ('}' :: r)))))) from by
        rw [show encFields lvlI (kv :: kvs) = encFields lvlI ((kv.1, kv.2) :: kvs) from rfl]
        simp [encFields]]
    rfl

/-! ### Round-trip lemmas: whitespace and heads -/

/-- Dropping whitespace removes a prefix made of whitespace. -/
theorem dropWs_ws_append (pre : List Char) (h : ∀ c ∈ pre, isWsCh c = true) :
    ∀ l : List Char, dropWs (pre ++ l) = dropWs l := by
  induction pre with
  | nil => intro l; rfl
  | cons c cs ih =>
    intro l
    have hc : isWsCh c = true := h c (by simp)
    have hcs : ∀ x ∈ cs, isWsCh x = true := fun x hx => h x (by simp [hx])
    simp only [List.cons_append, dropWs, hc, if_pos]
    exact ih hcs l

/-- Every character of a line break plus indentation is whitespace. -/
theorem nlIndent_ws (lvl : Nat) : ∀ c ∈ nlIndent lvl, isWsCh c = true := by
  intro c hc
  simp only [nlIndent, indentL, List.mem_cons, List.mem_replicate] at hc
  rcases hc with h | ⟨-, h⟩ <;> subst h <;> decide

/-- A serialised value begins with a marker that is neither whitespace nor a
closing bracket. -/
theorem encVal_head (lvl : Nat) (v : Json) :
    ∃ c t, encVal lvl v = c :: t ∧ isWsCh c = false ∧ c ≠ ']' ∧ c ≠ '}' := by
  cases v with
  | null =>
    exact ⟨'n', "ull".data, by simp only [encVal]; try rfl, by decide, by decide, by decide⟩
  | bool b =>
    cases b with
    | true =>
      exact ⟨'t', "rue".data, by simp only [encVal]; try rfl, by decide, by decide, by decide⟩
    | false =>
      exact ⟨'f', "alse".data, by simp only [encVal]; try rfl, by decide, by decide, by decide⟩
  | num i =>
    by_cases hneg : i < 0
    · exact ⟨'-', natChars i.natAbs, by simp [encVal, intChars, hneg],
        by decide, by decide, by decide⟩
    · obtain ⟨d, ds, hds⟩ := List.exists_cons_of_ne_nil (natDigitsM_ne_nil i.natAbs)
      have hd10 : d < 10 := natDigitsM_lt i.natAbs d (by rw [hds]; simp)
      have hdig : isDigCh (Char.ofNat (48 + d)) = true := by
        simp only [isDigCh, toNat_ofNat_valid (48 + d) (by omega), Bool.and_eq_true,
          decide_eq_true_eq]
        omega
      obtain ⟨hws2, hbr2, hbc2, -, -, -, -, -, -, -⟩ := digitCh_props _ hdig
      refine ⟨Char.ofNat (48 + d), ds.map fun x => Char.ofNat (48 + x), ?_, hws2, hbr2, hbc2⟩
      rw [show encVal lvl (.num i) = intChars i from by simp only [encVal],
        show intChars i = natChars i.natAbs from by simp [intChars, hneg],
        natChars, hds, List.map_cons]
  | str s =>
    exact ⟨'"', s.data.flatMap escChar ++ ['"'], by simp [encVal, encStrL],
      by decide, by decide, by decide⟩
  | arr items =>
    cases items with
    | nil => exact ⟨'[', [']'], by simp [encVal], by decide, by decide, by decide⟩
    | cons x xs =>
      exact ⟨'[', nlIndent (lvl + 1) ++ (encVal (lvl + 1) x
          ++ (encItems (lvl + 1) xs ++ (nlIndent lvl ++ [']']))),
        by simp [encVal], by decide, by decide, by decide⟩
  | obj fields =>
    cases fields with
    | nil => exact ⟨'{', ['}'], by simp [encVal], by decide, by decide, by decide⟩
    | cons kv kvs =>
      exact ⟨'{', nlIndent (lvl + 1) ++ (encStrL kv.1 ++ ':' :: ' '
          :: (encVal (lvl + 1) kv.2 ++ (encFields (lvl + 1) kvs ++ (nlIndent lvl ++ ['}'])))),
        by rw [show encVal lvl (.obj (kv :: kvs))
          = encVal lvl (.obj ((kv.1, kv.2) :: kvs)) from rfl]; simp [encVal],
        by decide, by decide, by decide⟩

/-- Dropping whitespace does not touch a serialised value. -/
theorem dropWs_encVal (lvl : Nat) (v : Json) (x : List Char) :
    dropWs (encVal lvl v ++ x) = encVal lvl v ++ x := by
  obtain ⟨c, t, he, hws, -, -⟩ := encVal_head lvl v
  rw [he]
  show dropWs (c :: (t ++ x)) = _
  rw [dropWs.eq_def]
  simp [hws]

/-- One step of `parseVal` at positive fuel, spelled out. -/
theorem parseVal_step (fuel : Nat) (cs : List Char) :
    parseVal (fuel + 1) cs =
      (match dropWs cs with
       | 'n' :: 'u' :: 'l' :: 'l' :: rest => some (.null, rest)
       | 't' :: 'r' :: 'u' :: 'e' :: rest => some (.bool true, rest)
       | 'f' :: 'a' :: 'l' :: 's' :: 'e' :: rest => some (.bool false, rest)
       | '"' :: rest => (parseStrBody rest).map fun p => (.str (String.mk p.1), p.2)
       | '[' :: rest =>
         match dropWs rest with
         | [] => none
         | c :: rest2 =>
           if c = ']' then some (.arr [], rest2)
           else
             match parseVal fuel (c :: rest2) with
             | some (v, rest3) => (parseItems fuel rest3).map fun p => (.arr (v :: p.1), p.2)
             | none => none
       | '{' :: rest =>
         match dropWs rest with
         | [] => none
         | c :: rest2 =>
           if c = '}' then some (.obj [], rest2)
           else
             match parseField fuel (c :: rest2) with
             | some (kv, rest3) => (parseFields fuel rest3).map fun p => (.obj (kv :: p.1), p.2)
             | none => none
       | '-' :: rest =>
         match grabDigits rest with
         | (d :: ds, rest2) => some (.num (-(digitsNum (d :: ds) : Int)), rest2)
         | ([], _) => none
       | c :: rest =>
         if isDigCh c then
           some (.num (digitsNum (grabDigits (c :: rest)).1), (grabDigits (c :: rest)).2)
         else none
       | [] => none) :=
  rfl

/-- One step of `parseField` at positive fuel, spelled out. -/
theorem parseField_step (fuel : Nat) (cs : List Char) :
    parseField (fuel + 1) cs =
      (match dropWs cs with
       | '"' :: rest =>
         match parseStrBody rest with
         | some (k, rest2) =>
           match dropWs rest2 with
           | ':' :: rest3 => (parseVal fuel rest3).map fun p => ((String.mk k, p.1), p.2)
           | _ => none
         | none => none
       | _ => none) :=
  rfl

/-- One step of `parseItems` at positive fuel, spelled out. -/
theorem parseItems_step (fuel : Nat) (cs : List Char) :
    parseItems (fuel + 1) cs =
      (match dropWs cs with
       | ',' :: rest =>
         match parseVal fuel rest with
         | some (v, rest2) => (parseItems fuel rest2).map fun p => (v :: p.1, p.2)
         | none => none
       | ']' :: rest => some ([], rest)
       | _ => none) :=
  rfl

/-- One step of `parseFields` at positive fuel, spelled out. -/
theorem parseFields_step (fuel : Nat) (cs : List Char) :
    parseFields (fuel + 1) cs =
      (match dropWs cs with
       | ',' :: rest =>
         match parseField fuel rest with
         | some (kv, rest2) => (parseFields fuel rest2).map fun p => (kv :: p.1, p.2)
         | none => none
       | '}' :: rest => some ([], rest)
       | _ => none) :=
  rfl

/-- Two inputs with the same significant content parse alike. -/
theorem parseVal_congr_ws (fuel : Nat) (cs cs2 : List Char)
    (h : dropWs cs = dropWs cs2) :
    parseVal (fuel + 1) cs = parseVal (fuel + 1) cs2 := by
  rw [parseVal_step, h, ← parseVal_step]

/-- The `parseField` analogue of `parseVal_congr_ws`. -/
theorem parseField_congr_ws (fuel : Nat) (cs cs2 : List Char)
    (h : dropWs cs = dropWs cs2) :
    parseField (fuel + 1) cs = parseField (fuel + 1) cs2 := by
  rw [parseField_step, h, ← parseField_step]

/-- A value whose input leads with a digit parses as a number. -/
theorem parseVal_digit (f : Nat) (c : Char) (t : List Char) (hc : isDigCh c = true) :
    parseVal (f + 1) (c :: t)
      = some (.num (digitsNum (grabDigits (c :: t)).1), (grabDigits (c :: t)).2) := by
  obtain ⟨hws, -, -, hn, ht, hf', hq, hbk, hbc, hm⟩ := digitCh_props c hc
  rw [parseVal_step]
  rw [show dropWs (c :: t) = c :: t from by rw [dropWs.eq_def]; simp [hws]]
  split
  · rename_i heq
    injection heq with h1
    exact absurd h1 hn
  · rename_i heq
    injection heq with h1
    exact absurd h1 ht
  · rename_i heq
    injection heq with h1
    exact absurd h1 hf'
  · rename_i heq
    injection heq with h1
    exact absurd h1 hq
  · rename_i heq
    injection heq with h1
    exact absurd h1 hbk
  · rename_i heq
    injection heq with h1
    exact absurd h1 hbc
  · rename_i heq
    injection heq with h1
    exact absurd h1 hm
  · rename_i c2 rest2 heq
    injection heq with h1 h2
    subst h1
    subst h2
    rw [if_pos hc]
  · rename_i heq
    exact absurd heq (by simp)


/-! ### Round-trip lemmas: lengths -/

/-- The length of a line break plus indentation. -/
theorem nlIndent_length (lvl : Nat) : (nlIndent lvl).length = 2 * lvl + 1 := by
  simp [nlIndent, indentL]

/-- A serialised value is never empty. -/
theorem encVal_length_pos (lvl : Nat) (v : Json) : 0 < (encVal lvl v).length := by
  obtain ⟨c, t, he, -, -, -⟩ := encVal_head lvl v
  simp [he]

/-- A serialised string is at least its two quotes long. -/
theorem encStrL_length_ge (s : String) : 2 ≤ (encStrL s).length := by
  simp [encStrL]

/-! ### The round trip itself -/

mutual

/-- Parsing a serialised value at any level recovers it. -/
theorem rt_val : ∀ (v : Json) (lvl fuel : Nat) (rest : List Char),
    (encVal lvl v).length < fuel → numDelim rest = true →
    parseVal fuel (encVal lvl v ++ rest) = some (v, rest)
  | .null, lvl, 0, rest, hf, _ => absurd hf (by omega)
  | .null, lvl, f + 1, rest, hf, hd => by
    rw [show encVal lvl .null = "null".data from by simp only [encVal]; try rfl]
    rfl
  | .bool true, lvl, 0, rest, hf, _ => absurd hf (by omega)
  | .bool true, lvl, f + 1, rest, hf, hd => by
    rw [show encVal lvl (.bool true) = "true".data from by simp only [encVal]; try rfl]
    rfl
  | .bool false, lvl, 0, rest, hf, _ => absurd hf (by omega)
  | .bool false, lvl, f + 1, rest, hf, hd => by
    rw [show encVal lvl (.bool false) = "false".data from by simp only [encVal]; try rfl]
    rfl
  | .num i, lvl, 0, rest, hf, _ => absurd hf (by omega)
  | .num i, lvl, f + 1, rest, hf, hd => by
    rw [show encVal lvl (.num i) = intChars i from by simp only [encVal]]
    by_cases hneg : i < 0
    · rw [show intChars i = '-' :: natChars i.natAbs from by simp [intChars, hneg]]
      show (match grabDigits (natChars i.natAbs ++ rest) with
        | (d :: ds, rest2) => some (Json.num (-(digitsNum (d :: ds) : Int)), rest2)
        | ([], _) => none) = some (.num i, rest)
      rw [show natChars i.natAbs ++ rest
        = ((natDigitsM i.natAbs).map fun d => Char.ofNat (48 + d)) ++ rest from rfl]
      rw [grabDigits_append (natDigitsM i.natAbs) (natDigitsM_lt _) rest hd]
      obtain ⟨d, ds, hds⟩ := List.exists_cons_of_ne_nil (natDigitsM_ne_nil i.natAbs)
      rw [hds]
      show some (Json.num (-(digitsNum (d :: ds) : Int)), rest) = some (.num i, rest)
      rw [← hds, digitsNum_natDigitsM]
      rw [show -((i.natAbs : Int)) = i from by omega]
    · rw [show intChars i = natChars i.natAbs from by simp [intChars, hneg]]
      obtain ⟨d, ds, hds⟩ := List.exists_cons_of_ne_nil (natDigitsM_ne_nil i.natAbs)
      have hd10 : d < 10 := natDigitsM_lt i.natAbs d (by rw [hds]; simp)
      have hdig : isDigCh (Char.ofNat (48 + d)) = true := by
        simp only [isDigCh, toNat_ofNat_valid (48 + d) (by omega), Bool.and_eq_true,
          decide_eq_true_eq]
        omega
      rw [show natChars i.natAbs ++ rest
        = Char.ofNat (48 + d) :: ((ds.map fun x => Char.ofNat (48 + x)) ++ rest) from by
          rw [natChars, hds, List.map_cons, List.cons_append]]
      rw [parseVal_digit f _ _ hdig]
      rw [show Char.ofNat (48 + d) :: ((ds.map fun x => Char.ofNat (48 + x)) ++ rest)
        = ((natDigitsM i.natAbs).map fun x => Char.ofNat (48 + x)) ++ rest from by
          rw [hds, List.map_cons, List.cons_append]]
      rw [grabDigits_append (natDigitsM i.natAbs) (natDigitsM_lt _) rest hd]
      rw [show digitsNum (natDigitsM i.natAbs) = i.natAbs from digitsNum_natDigitsM _]
      rw [show ((i.natAbs : Int)) = i from by omega]
  | .str s, lvl, 0, rest, hf, _ => absurd hf (by omega)
  | .str s, lvl, f + 1, rest, hf, hd => by
    rw [show encVal lvl (.str s) ++ rest
      = '"' :: (s.data.flatMap escChar ++ ('"' :: rest)) from by simp [encVal, encStrL]]
    show (parseStrBody (s.data.flatMap escChar ++ ('"' :: rest))).map
        (fun p => (Json.str (String.mk p.1), p.2)) = some (.str s, rest)
    rw [parseStrBody_flatMap]
    rfl
  | .arr [], lvl, 0, rest, hf, _ => absurd hf (by omega)
  | .arr [], lvl, f + 1, rest, hf, hd => by
    rw [show encVal lvl (.arr []) = ['[', ']'] from by simp [encVal]]
    rfl
  | .arr (x :: xs), lvl, 0, rest, hf, _ => absurd hf (by omega)
  | .arr (x :: xs), lvl, f + 1, rest, hf, hd => by
    simp only [encVal, List.length_cons, List.length_append, List.length_nil,
      nlIndent_length] at hf
    obtain ⟨c, t, hct, hws, hbr, -⟩ := encVal_head (lvl + 1) x
    rw [show encVal lvl (.arr (x :: xs)) ++ rest
      = '[' :: (nlIndent (lvl + 1) ++ (encVal (lvl + 1) x
          ++ (encItems (lvl + 1) xs ++ (nlIndent lvl ++ (']' :: rest))))) from by
        simp [encVal]]
    show (match dropWs (nlIndent (lvl + 1) ++ (encVal (lvl + 1) x
        ++ (encItems (lvl + 1) xs ++ (nlIndent lvl ++ (']' :: rest))))) with
      | [] => none
      | c :: rest2 =>
        if c = ']' then some (Json.arr [], rest2)
        else
          match parseVal f (c :: rest2) with
          | some (v, rest3) => (parseItems f rest3).map fun p => (Json.arr (v :: p.1), p.2)
          | none => none) = some (.arr (x :: xs), rest)
    rw [dropWs_ws_append (nlIndent (lvl + 1)) (nlIndent_ws (lvl + 1)), dropWs_encVal,
      hct, List.cons_append]
    show (if c = ']' then some (Json.arr [], t ++ (encItems (lvl + 1) xs
        ++ (nlIndent lvl ++ (']' :: rest))))
      else
        match parseVal f (c :: (t ++ (encItems (lvl + 1) xs
            ++ (nlIndent lvl ++ (']' :: rest))))) with
        | some (v, rest3) => (parseItems f rest3).map fun p => (Json.arr (v :: p.1), p.2)
        | none => none) = some (.arr (x :: xs), rest)
    rw [if_neg hbr,
      show c :: (t ++ (encItems (lvl + 1) xs ++ (nlIndent lvl ++ (']' :: rest))))
        = encVal (lvl + 1) x ++ (encItems (lvl + 1) xs ++ (nlIndent lvl ++ (']' :: rest)))
        from by rw [hct]; rfl,
      rt_val x (lvl + 1) f _ (by omega) (numDelim_encItems (lvl + 1) lvl xs rest)]
    show (parseItems f (encItems (lvl + 1) xs ++ (nlIndent lvl ++ (']' :: rest)))).map
        (fun p => (Json.arr (x :: p.1), p.2)) = some (.arr (x :: xs), rest)
    rw [rt_items xs (lvl + 1) lvl f rest (by omega)]
    rfl
  | .obj [], lvl, 0, rest, hf, _ => absurd hf (by omega)
  | .obj [], lvl, f + 1, rest, hf, hd => by
    rw [show encVal lvl (.obj []) = ['{', '}'] from by simp [encVal]]
    rfl
  | .obj ((k, v) :: kvs), lvl, 0, rest, hf, _ => absurd hf (by omega)
  | .obj ((k, v) :: kvs), lvl, f + 1, rest, hf, hd => by
    simp only [encVal, List.length_cons, List.length_append, List.length_nil,
      nlIndent_length] at hf
    rw [show encVal lvl (.obj ((k, v) :: kvs)) ++ rest
      = '{' :: (nlIndent (lvl + 1) ++ (encStrL k ++ ':' :: ' ' :: (encVal (lvl + 1) v
          ++ (encFields (lvl + 1) kvs ++ (nlIndent lvl ++ ('}' :: rest)))))) from by
        simp [encVal]]
    show (match dropWs (nlIndent (lvl + 1) ++ (encStrL k ++ ':' :: ' ' :: (encVal (lvl + 1) v
        ++ (encFields (lvl + 1) kvs ++ (nlIndent lvl ++ ('}' :: rest)))))) with
      | [] => none
      | c :: rest2 =>
        if c = '}' then some (Json.obj [], rest2)
        else
          match parseField f (c :: rest2) with
          | some (kv, rest3) => (parseFields f rest3).map fun p => (Json.obj (kv :: p.1), p.2)
          | none => none) = some (.obj ((k, v) :: kvs), rest)
    rw [dropWs_ws_append (nlIndent (lvl + 1)) (nlIndent_ws (lvl + 1)),
      show encStrL k ++ ':' :: ' ' :: (encVal (lvl + 1) v
          ++ (encFields (lvl + 1) kvs ++ (nlIndent lvl ++ ('}' :: rest))))
        = '"' :: (k.data.flatMap escChar ++ ('"' :: (':' :: ' ' :: (encVal (lvl + 1) v
            ++ (encFields (lvl + 1) kvs ++ (nlIndent lvl ++ ('}' :: rest))))))) from by
          simp [encStrL]]
    show (match parseField f ('"' :: (k.data.flatMap escChar ++ ('"' :: (':' :: ' '
        :: (encVal (lvl + 1) v ++ (encFields (lvl + 1) kvs
          ++ (nlIndent lvl ++ ('}' :: rest)))))))) with
      | some (kv, rest3) => (parseFields f rest3).map fun p => (Json.obj (kv :: p.1), p.2)
      | none => none) = some (.obj ((k, v) :: kvs), rest)
    rw [show ('"' :: (k.data.flatMap escChar ++ ('"' :: (':' :: ' ' :: (encVal (lvl + 1) v
        ++ (encFields (lvl + 1) kvs ++ (nlIndent lvl ++ ('}' :: rest))))))))
      = encStrL k ++ (':' :: ' ' :: (encVal (lvl + 1) v
          ++ (encFields (lvl + 1) kvs ++ (nlIndent lvl ++ ('}' :: rest))))) from by
        simp [encStrL],
      rt_field k v (lvl + 1) f _ (by omega) (numDelim_encFields (lvl + 1) lvl kvs rest)]
    show (parseFields f (encFields (lvl + 1) kvs ++ (nlIndent lvl ++ ('}' :: rest)))).map
        (fun p => (Json.obj ((k, v) :: p.1), p.2)) = some (.obj ((k, v) :: kvs), rest)
    rw [rt_fields kvs (lvl + 1) lvl f rest (by omega)]
    rfl
termination_by v _ _ _ _ _ => sizeOf v

/-- Parsing a serialised `"key": value` member recovers it. -/
theorem rt_field : ∀ (k : String) (v : Json) (lvl fuel : Nat) (rest : List Char),
    (encVal lvl v).length + 1 < fuel → numDelim rest = true →
    parseField fuel (encStrL k ++ (':' :: ' ' :: (encVal lvl v ++ rest)))
      = some ((k, v), rest)
  | k, v, lvl, 0, rest, hf, _ => absurd hf (by omega)
  | k, v, lvl, f + 1, rest, hf, hd => by
    rw [show encStrL k ++ (':' :: ' ' :: (encVal lvl v ++ rest))
      = '"' :: (k.data.flatMap escChar
          ++ ('"' :: (':' :: ' ' :: (encVal lvl v ++ rest)))) from by simp [encStrL]]
    show (match parseStrBody (k.data.flatMap escChar
        ++ ('"' :: (':' :: ' ' :: (encVal lvl v ++ rest)))) with
      | some (kk, rest2) =>
        match dropWs rest2 with
        | ':' :: rest3 => (parseVal f rest3).map fun p => ((String.mk kk, p.1), p.2)
        | _ => none
      | none => none) = some ((k, v), rest)
    rw [parseStrBody_flatMap]
    show (parseVal f (' ' :: (encVal lvl v ++ rest))).map
        (fun p => ((String.mk k.data, p.1), p.2)) = some ((k, v), rest)
    match f, hf with
    | f2 + 1, hf =>
      rw [parseVal_congr_ws f2 (' ' :: (encVal lvl v ++ rest)) (encVal lvl v ++ rest) rfl,
        rt_val v lvl (f2 + 1) rest (by omega) hd]
      rfl
termination_by _ v _ _ _ _ _ => sizeOf v + 1

/-- Parsing the serialised remaining elements, then the closing line and
bracket, recovers them. -/
theorem rt_items : ∀ (xs : List Json) (lvlI lvlC fuel : Nat) (rest : List Char),
    (encItems lvlI xs).length < fuel →
    parseItems fuel (encItems lvlI xs ++ (nlIndent lvlC ++ (']' :: rest)))
      = some (xs, rest)
  | xs, lvlI, lvlC, 0, rest, hf => absurd hf (by omega)
  | [], lvlI, lvlC, f + 1, rest, hf => by
    rw [show encItems lvlI [] = ([] : List Char) from by simp [encItems],
      List.nil_append, parseItems_step,
      dropWs_ws_append (nlIndent lvlC) (nlIndent_ws lvlC)]
    rfl
  | x :: xs, lvlI, lvlC, f + 1, rest, hf => by
    simp only [encItems, List.length_cons, List.length_append, List.length_nil,
      nlIndent_length] at hf
    rw [show encItems lvlI (x :: xs) ++ (nlIndent lvlC ++ (']' :: rest))
      = ',' :: (nlIndent lvlI ++ (encVal lvlI x
          ++ (encItems lvlI xs ++ (nlIndent lvlC ++ (']' :: rest))))) from by
        simp [encItems]]
    show (match parseVal f (nlIndent lvlI ++ (encVal lvlI x
        ++ (encItems lvlI xs ++ (nlIndent lvlC ++ (']' :: rest))))) with
      | some (v, rest2) => (parseItems f rest2).map fun p => (v :: p.1, p.2)
      | none => none) = some (x :: xs, rest)
    match f, hf with
    | f2 + 1, hf =>
      rw [parseVal_congr_ws f2 _ (encVal lvlI x
          ++ (encItems lvlI xs ++ (nlIndent lvlC ++ (']' :: rest))))
          (dropWs_ws_append (nlIndent lvlI) (nlIndent_ws lvlI) _),
        rt_val x lvlI (f2 + 1) _ (by omega) (numDelim_encItems lvlI lvlC xs rest)]
      show (parseItems (f2 + 1) (encItems lvlI xs
          ++ (nlIndent lvlC ++ (']' :: rest)))).map
          (fun p => (x :: p.1, p.2)) = some (x :: xs, rest)
      rw [rt_items xs lvlI lvlC (f2 + 1) rest (by omega)]
      rfl
termination_by xs _ _ _ _ _ => sizeOf xs

/-- Parsing the serialised remaining members, then the closing line and
bracket, recovers them. -/
theorem rt_fields : ∀ (kvs : List (String × Json)) (lvlI lvlC fuel : Nat)
    (rest : List Char),
    (encFields lvlI kvs).length < fuel →
    parseFields fuel (encFields lvlI kvs ++ (nlIndent lvlC ++ ('}' :: rest)))
      = some (kvs, rest)
  | kvs, lvlI, lvlC, 0, rest, hf => absurd hf (by omega)
  | [], lvlI, lvlC, f + 1, rest, hf => by
    rw [show encFields lvlI [] = ([] : List Char) from by simp [encFields],
      List.nil_append, parseFields_step,
      dropWs_ws_append (nlIndent lvlC) (nlIndent_ws lvlC)]
    rfl
  | (k, v) :: kvs, lvlI, lvlC, f + 1, rest, hf => by
    simp only [encFields, List.length_cons, List.length_append, List.length_nil,
      nlIndent_length] at hf
    rw [show encFields lvlI ((k, v) :: kvs) ++ (nlIndent lvlC ++ ('}' :: rest))
      = ',' :: (nlIndent lvlI ++ (encStrL k ++ ':' :: ' ' :: (encVal lvlI v
          ++ (encFields lvlI kvs ++ (nlIndent lvlC ++ ('}' :: rest)))))) from by
        simp [encFields]]
    show (match parseField f (nlIndent lvlI ++ (encStrL k ++ ':' :: ' '
        :: (encVal lvlI v ++ (encFields lvlI kvs
          ++ (nlIndent lvlC ++ ('}' :: rest)))))) with
      | some (kv, rest2) => (parseFields f rest2).map fun p => (kv :: p.1, p.2)
      | none => none) = some ((k, v) :: kvs, rest)
    match f, hf with
    | f2 + 1, hf =>
      rw [parseField_congr_ws f2 _ (encStrL k ++ ':' :: ' ' :: (encVal lvlI v
            ++ (encFields lvlI kvs ++ (nlIndent lvlC ++ ('}' :: rest)))))
          (dropWs_ws_append (nlIndent lvlI) (nlIndent_ws lvlI) _),
        show encStrL k ++ ':' :: ' ' :: (encVal lvlI v
            ++ (encFields lvlI kvs ++ (nlIndent lvlC ++ ('}' :: rest))))
          = encStrL k ++ (':' :: ' ' :: (encVal lvlI v
            ++ (encFields lvlI kvs ++ (nlIndent lvlC ++ ('}' :: rest))))) from rfl,
        rt_field k v lvlI (f2 + 1) _ (by omega) (numDelim_encFields lvlI lvlC kvs rest)]
      show (parseFields (f2 + 1) (encFields lvlI kvs
          ++ (nlIndent lvlC ++ ('}' :: rest)))).map
          (fun p => ((k, v) :: p.1, p.2)) = some ((k, v) :: kvs, rest)
      rw [rt_fields kvs lvlI lvlC (f2 + 1) rest (by omega)]
      rfl
termination_by kvs _ _ _ _ _ => sizeOf kvs

end

/-- Parsing any serialised document gives back the serialised value. -/
theorem parse_dumps (v : Json) : parse (dumps v) = some v := by
  unfold parse dumps
  rw [show (String.mk (encVal 0 v)).data = encVal 0 v from rfl]
  have h := rt_val v 0 ((encVal 0 v).length + 1) [] (by omega) rfl
  rw [List.append_nil] at h
  rw [h]
  rfl

/-- A character from `U+0080` up is written verbatim, never escaped. -/
theorem escChar_nonAscii (c : Char) (hc : 128 ≤ c.toNat) : escChar c = [c] := by
  unfold escChar
  rw [if_neg (fun h => by subst h; exact absurd hc (by decide)),
    if_neg (fun h => by subst h; exact absurd hc (by decide)),
    if_neg (fun h => by subst h; exact absurd hc (by decide)),
    if_neg (fun h => by subst h; exact absurd hc (by decide)),
    if_neg (fun h => by subst h; exact absurd hc (by decide)),
    if_neg (fun h => by subst h; exact absurd hc (by decide)),
    if_neg (fun h => by subst h; exact absurd hc (by decide)),
    if_neg (by omega)]

/-! ### C9 -/

/-- C9: any assembled output mapping written by `write_json`, parsed back,
equals the in-memory mapping — over the full value universe the program can
assemble, the fast-path passthrough's integer numbers included (a mapping
holding a non-integral IEEE-754 double lies outside the model, float
serialisation being floating-point behaviour; see `Json`).  Characters from
`U+0080` up — all non-ASCII — are written verbatim (not escaped), and a
nonempty mapping is written with two-space indentation, its first member
opening on a fresh line indented by two spaces. -/
theorem c9_write_json_roundtrip :
    (∀ fields : List (String × Json),
      parse (write_json (Json.obj fields)) = some (Json.obj fields)) ∧
    (∀ c : Char, 128 ≤ c.toNat → escChar c = [c]) ∧
    (∀ (k : String) (v : Json) (kvs : List (String × Json)),
      ∃ t, (write_json (Json.obj ((k, v) :: kvs))).data
        = '{' :: '\n' :: ' ' :: ' ' :: t) := by
  refine ⟨fun fields => parse_dumps _, escChar_nonAscii, fun k v kvs => ?_⟩
  refine ⟨encStrL k ++ ':' :: ' ' :: (encVal 1 v
    ++ (encFields 1 kvs ++ (nlIndent 0 ++ ['}']))), ?_⟩
  show (String.mk (encVal 0 (Json.obj ((k, v) :: kvs)))).data = _
  rw [show (String.mk (encVal 0 (Json.obj ((k, v) :: kvs)))).data
    = encVal 0 (Json.obj ((k, v) :: kvs)) from rfl]
  simp [encVal, nlIndent, indentL, List.replicate]

/-- C9 witness: the round trip and the verbatim rule at concrete inputs,
the mapping holding a string, a nested array and two integer leaves. -/
theorem c9_witness :
    parse (write_json (Json.obj [("query", Json.str "Crl µ 10/2023"),
        ("results", Json.arr [Json.num 42, Json.num (-7)])]))
      = some (Json.obj [("query", Json.str "Crl µ 10/2023"),
        ("results", Json.arr [Json.num 42, Json.num (-7)])]) ∧
    escChar 'µ' = ['µ'] :=
  ⟨c9_write_json_roundtrip.1 _, c9_write_json_roundtrip.2.1 'µ' (by decide)⟩

end Ecourts
